import Mathlib

/-!
Shallow embedding of the Pharrrohealth single-page application core
(src/App.tsx and the voice-capture medication modal) together with proofs
about its structured-extraction service, its combined reading log, and its
realtime voice-capture session.

Modelling conventions:

* The generative-AI backend is nondeterministic; every call of the form
  `ai.models.generateContent(...)` followed by `response.text.trim()` and
  `JSON.parse(...)` is modelled by an oracle parameter of type
  `Except Unit Json`: `.error ()` stands for a transport failure or a
  `JSON.parse` exception (malformed response text), `.ok j` for a reply
  whose text parsed to the JSON value `j`.
* JavaScript numbers are modelled as rationals; the code only compares
  them with `> 0` and checks `typeof x === 'number'`, so this is faithful
  for every value the claims are about.
* JavaScript property access `v.k` yields the field for objects, throws a
  TypeError on `null`, and yields `undefined` otherwise; `undefined` is
  `Option.none` below.
-/

namespace Pharrrohealth

/-- A JSON value as produced by `JSON.parse`: objects are association
lists of string keys. -/
inductive Json where
  | null : Json
  | bool (b : Bool) : Json
  | num (q : ℚ) : Json
  | str (s : String) : Json
  | arr (elems : List Json) : Json
  | obj (fields : List (String × Json)) : Json

/-- JavaScript truthiness of a JSON value (`if (v)`). -/
def jsTruthy : Json → Bool
  | .null => false
  | .bool b => b
  | .num q => q != 0
  | .str s => s != ""
  | .arr _ => true
  | .obj _ => true

/-- JavaScript property access `v.k`: a TypeError (`.error`) on `null`,
the looked-up field (or `undefined` = `none`) on objects, `undefined` on
every other value. -/
def Json.getProp : Json → String → Except Unit (Option Json)
  | .null, _ => .error ()
  | .obj fields, k => .ok (fields.lookup k)
  | _, _ => .ok none

/-- `typeof v.k === 'number'`, evaluated on a value already known to be
truthy (so the access cannot throw). -/
def propIsNum (v : Json) (k : String) : Bool :=
  match v.getProp k with
  | .ok (some (.num _)) => true
  | _ => false

/-- `typeof v.k === 'string'`. -/
def propIsStr (v : Json) (k : String) : Bool :=
  match v.getProp k with
  | .ok (some (.str _)) => true
  | _ => false

/-- `v.k === s` for a string literal `s`. -/
def propEqStr (v : Json) (k s : String) : Bool :=
  match v.getProp k with
  | .ok (some (.str t)) => t == s
  | _ => false

/-- `Array.isArray(v.k)`. -/
def propIsArr (v : Json) (k : String) : Bool :=
  match v.getProp k with
  | .ok (some (.arr _)) => true
  | _ => false

/-- Truthiness of `v.k` (used for the `parsed.totalNutrition` check). -/
def propTruthy (v : Json) (k : String) : Bool :=
  match v.getProp k with
  | .ok (some w) => jsTruthy w
  | _ => false

/-- The string field `v.k`, when present with string runtime type. -/
def propStr? (v : Json) (k : String) : Option String :=
  match v.getProp k with
  | .ok (some (.str s)) => some s
  | _ => none

/-- The numeric field `v.k`, when present with number runtime type. -/
def propNum? (v : Json) (k : String) : Option ℚ :=
  match v.getProp k with
  | .ok (some (.num q)) => some q
  | _ => none

/-- Truthiness of a possibly-`undefined` JavaScript value. -/
def jsTruthyOpt : Option Json → Bool
  | none => false
  | some v => jsTruthy v

/-! ### Classification operations (src/App.tsx lines 197-223, 231-257, 554-569, 640-655)

Each classify operation wraps its whole body in `try { ... } catch { return
false; }`.  The body requests a one-field JSON object and returns
`parsed.<field>` as-is (this is `undefined`, not `false`, when the field is
absent; a TypeError on `parsed.<field>` when `parsed` is `null` is caught
by the same handler).  `classifyBody` is the fallible body, the operation
itself is the body with the catch installed. -/

/-- Fallible body of a classify operation: awaits the backend reply and
reads `parsed.<field>`; either step may throw. -/
def classifyBody (field : String) (resp : Except Unit Json) : Except Unit (Option Json) := do
  let parsed ← resp
  parsed.getProp field

/-- A classify operation: the body with its `catch (error) { return false; }`
boundary (the source logs a diagnostic, which has no modelled effect). -/
def classifyOp (field : String) (resp : Except Unit Json) : Option Json :=
  match classifyBody field resp with
  | .ok v => v
  | .error _ => some (.bool false)

/-- `isImageOfGlucoseMeter` (src/App.tsx lines 197-223): reads `isMeter`. -/
def isImageOfGlucoseMeter (resp : Except Unit Json) : Option Json :=
  classifyOp "isMeter" resp

/-- `isImageOfFood` (src/App.tsx lines 231-257): reads `isFood`. -/
def isImageOfFood (resp : Except Unit Json) : Option Json :=
  classifyOp "isFood" resp

/-- `isImageOfWeightScale` (src/App.tsx lines 554-569): reads `isScale`. -/
def isImageOfWeightScale (resp : Except Unit Json) : Option Json :=
  classifyOp "isScale" resp

/-- `isImageOfBloodPressureMonitor` (src/App.tsx lines 640-655): reads
`isMonitor`. -/
def isImageOfBloodPressureMonitor (resp : Except Unit Json) : Option Json :=
  classifyOp "isMonitor" resp

/-! ### Text/image extraction validation bodies

Each extraction operation validates the parsed reply with a guard of the
shape `if (parsed && typeof parsed.f === '...' && ...) return parsed;
return null;`, and wraps everything in `try/catch` returning `null`.
The glucose, weight and blood-pressure validations are duplicated verbatim
between the text and image variants in the source, so they are shared
definitions here. -/

/-- Validation shared by `parseGlucoseReadingFromText` (src/App.tsx lines
283-290) and `parseGlucoseReadingFromImage` (lines 338-344): requires
`value : number`, `unit : string`, `context : string`; returns the parsed
object itself, `none` on any failure (including transport/parse errors
caught by the surrounding `catch`). -/
def validateGlucose : Except Unit Json → Option Json
  | .error _ => none
  | .ok parsed =>
    if jsTruthy parsed && propIsNum parsed "value" && propIsStr parsed "unit" &&
        propIsStr parsed "context" then
      some parsed
    else
      none

/-- Validation shared by `parseWeightFromText` (src/App.tsx lines 626-630)
and `parseWeightFromImage` (lines 595-599): requires `value : number` and
`unit === 'kg' || unit === 'lbs'`. -/
def validateWeight : Except Unit Json → Option Json
  | .error _ => none
  | .ok parsed =>
    if jsTruthy parsed && propIsNum parsed "value" &&
        (propEqStr parsed "unit" "kg" || propEqStr parsed "unit" "lbs") then
      some parsed
    else
      none

/-- Validation shared by `parseBloodPressureFromText` (src/App.tsx lines
714-718) and `parseBloodPressureFromImage` (lines 682-686): requires
`systolic`, `diastolic` and `pulse` of number runtime type. -/
def validateBloodPressure : Except Unit Json → Option Json
  | .error _ => none
  | .ok parsed =>
    if jsTruthy parsed && propIsNum parsed "systolic" && propIsNum parsed "diastolic" &&
        propIsNum parsed "pulse" then
      some parsed
    else
      none

/-- Validation of `analyzeMealPhoto` (src/App.tsx lines 469-476):
`parsed && Array.isArray(parsed.foodItems) && parsed.totalNutrition`. -/
def validateMeal : Except Unit Json → Option Json
  | .error _ => none
  | .ok parsed =>
    if jsTruthy parsed && propIsArr parsed "foodItems" && propTruthy parsed "totalNutrition" then
      some parsed
    else
      none

/-- `parseGlucoseReadingFromText` (src/App.tsx lines 264-295). -/
def parseGlucoseReadingFromText (resp : Except Unit Json) : Option Json :=
  validateGlucose resp

/-- `parseWeightFromText` (src/App.tsx lines 609-635). -/
def parseWeightFromText (resp : Except Unit Json) : Option Json :=
  validateWeight resp

/-- `parseBloodPressureFromText` (src/App.tsx lines 696-723). -/
def parseBloodPressureFromText (resp : Except Unit Json) : Option Json :=
  validateBloodPressure resp

/-! ### Image extraction operations (classify, then extract)

Each image operation first awaits its classify call and throws a plain
`Error` with a fixed message when the classification result is falsy; the
throw happens before the `try` block, so it propagates to the caller.  The
`Except String` result models this raised exception; `.ok none` is the
`null` returned for a parse/validation failure inside the `try`. -/

/-- `parseGlucoseReadingFromImage` (src/App.tsx lines 304-350). -/
def parseGlucoseReadingFromImage (cResp eResp : Except Unit Json) :
    Except String (Option Json) :=
  if jsTruthyOpt (isImageOfGlucoseMeter cResp) then
    .ok (validateGlucose eResp)
  else
    .error "Image does not appear to contain a glucose meter."

/-- `parseWeightFromImage` (src/App.tsx lines 575-604). -/
def parseWeightFromImage (cResp eResp : Except Unit Json) :
    Except String (Option Json) :=
  if jsTruthyOpt (isImageOfWeightScale cResp) then
    .ok (validateWeight eResp)
  else
    .error "Image does not appear to contain a weight scale."

/-- `parseBloodPressureFromImage` (src/App.tsx lines 661-691). -/
def parseBloodPressureFromImage (cResp eResp : Except Unit Json) :
    Except String (Option Json) :=
  if jsTruthyOpt (isImageOfBloodPressureMonitor cResp) then
    .ok (validateBloodPressure eResp)
  else
    .error "Image does not appear to contain a blood pressure monitor."

/-- `analyzeMealPhoto` (src/App.tsx lines 406-482). -/
def analyzeMealPhoto (cResp eResp : Except Unit Json) :
    Except String (Option Json) :=
  if jsTruthyOpt (isImageOfFood cResp) then
    .ok (validateMeal eResp)
  else
    .error "Image does not appear to contain food."

/-! ### Medication matching (src/App.tsx lines 359-396) -/

/-- A user-defined medication catalog entry (`UserMedication` in
src/types, shape taken from src/components/dummyData.ts: id, name,
numeric dosage, unit). -/
structure UserMedication where
  id : String
  name : String
  dosage : ℚ
  unit : String
  deriving DecidableEq, Repr

/-- JavaScript `String.prototype.toLowerCase`, modelled as per-character
lowercasing of the string's characters (extensionally the mapping
`String.toLower` performs). -/
def jsToLower (s : String) : String := ⟨s.data.map Char.toLower⟩

/-- `parseMedicationFromText` (src/App.tsx lines 359-396), instrumented
with a Boolean recording whether a backend request was issued.  The source
returns `null` on an empty catalog before constructing the request; on the
main path it validates `name : string`, `quantity : number`, `quantity >
0`, then matches the returned name case-insensitively against the catalog
with `userMedications.find(m => m.name.toLowerCase() ===
parsed.name.toLowerCase())`; any exception is caught and becomes `null`. -/
def parseMedicationFromTextR (resp : Except Unit Json)
    (userMedications : List UserMedication) : Option (UserMedication × ℚ) × Bool :=
  if userMedications.length = 0 then (none, false)
  else
    (match resp with
     | .error _ => none
     | .ok parsed =>
       if jsTruthy parsed then
         match propStr? parsed "name", propNum? parsed "quantity" with
         | some nm, some q =>
           if 0 < q then
             match userMedications.find? (fun m => jsToLower m.name == jsToLower nm) with
             | some m => some (m, q)
             | none => none
           else none
         | _, _ => none
       else none,
     true)

/-- The result of `parseMedicationFromText`, dropping the request
instrumentation. -/
def parseMedicationFromText (resp : Except Unit Json)
    (userMedications : List UserMedication) : Option (UserMedication × ℚ) :=
  (parseMedicationFromTextR resp userMedications).1

/-! ### Application state and the combined reading log (src/App.tsx lines 20-84)

The five per-kind reading lists are held in `useState` lists; each add
operation appends the new reading and re-sorts its own list with the
comparator `(a, b) => new Date(b.timestamp).getTime() - new
Date(a.timestamp).getTime()`, and `combinedLogs` concatenates the five
lists (glucose, meals, medications, weights, blood pressures, in source
order) and sorts the concatenation with the same comparator.
`Array.prototype.sort` is stable (ES2019), and a stable sort for a total
preorder is unique, so it is modelled by the stable insertion sort
`sortDescTs` below.  A reading is modelled by its kind, its timestamp in
milliseconds (`new Date(...).getTime()`), and a ghost insertion index
`seq` recording global insertion order (the generated id strings play no
role in ordering and are omitted). -/

/-- The five reading kinds of the combined log. -/
inductive Kind where
  | glucose | meal | medication | weight | bloodPressure
  deriving DecidableEq, Repr

/-- Position of a kind in the `combinedLogs` concatenation
(src/App.tsx lines 78-84). -/
def kindRank : Kind → ℕ
  | .glucose => 0
  | .meal => 1
  | .medication => 2
  | .weight => 3
  | .bloodPressure => 4

/-- A logged reading, reduced to the fields relevant to ordering:
kind, timestamp in milliseconds, and a ghost global insertion index. -/
structure Reading where
  kind : Kind
  timestamp : ℤ
  seq : ℕ
  deriving DecidableEq, Repr

/-- Stable insertion of `a` into a list sorted descending by timestamp:
`a` goes after every element with a strictly larger timestamp and before
the first element whose timestamp is at most its own.  Used with `foldr`
over the input (see `sortDescTs`), this keeps earlier-listed elements
with equal timestamps in front, which is exactly stability. -/
def insertDescTs (a : Reading) : List Reading → List Reading
  | [] => [a]
  | b :: bs => if a.timestamp < b.timestamp then b :: insertDescTs a bs else a :: b :: bs

/-- The unique stable sort, descending by timestamp, of the comparator
`(a, b) => time(b) - time(a)` used throughout src/App.tsx. -/
def sortDescTs : List Reading → List Reading
  | [] => []
  | a :: l => insertDescTs a (sortDescTs l)

/-- The application state: the five per-kind reading lists
(src/App.tsx lines 21-25). -/
structure AppState where
  glucoseReadings : List Reading
  meals : List Reading
  medications : List Reading
  weightReadings : List Reading
  bloodPressureReadings : List Reading
  deriving DecidableEq, Repr

/-- The state with five empty lists. -/
def emptyState : AppState := ⟨[], [], [], [], []⟩

/-- `addGlucoseReading` (src/App.tsx lines 40-42): append, then sort
descending by timestamp. -/
def addGlucoseReading (s : AppState) (r : Reading) : AppState :=
  { s with glucoseReadings := sortDescTs (s.glucoseReadings ++ [r]) }

/-- `addMeal` (src/App.tsx lines 44-48). -/
def addMeal (s : AppState) (r : Reading) : AppState :=
  { s with meals := sortDescTs (s.meals ++ [r]) }

/-- `addMedication` (src/App.tsx lines 50-52). -/
def addMedication (s : AppState) (r : Reading) : AppState :=
  { s with medications := sortDescTs (s.medications ++ [r]) }

/-- `addWeightReading` (src/App.tsx lines 54-56). -/
def addWeightReading (s : AppState) (r : Reading) : AppState :=
  { s with weightReadings := sortDescTs (s.weightReadings ++ [r]) }

/-- `addBloodPressureReading` (src/App.tsx lines 58-60). -/
def addBloodPressureReading (s : AppState) (r : Reading) : AppState :=
  { s with bloodPressureReadings := sortDescTs (s.bloodPressureReadings ++ [r]) }

/-- Dispatch an append of kind `k` with timestamp `ts`; the ghost index
`n` records that this is the `n`-th append overall. -/
def addReading (s : AppState) (k : Kind) (ts : ℤ) (n : ℕ) : AppState :=
  match k with
  | .glucose => addGlucoseReading s ⟨k, ts, n⟩
  | .meal => addMeal s ⟨k, ts, n⟩
  | .medication => addMedication s ⟨k, ts, n⟩
  | .weight => addWeightReading s ⟨k, ts, n⟩
  | .bloodPressure => addBloodPressureReading s ⟨k, ts, n⟩

/-- Apply a sequence of appends, numbering them from `n`. -/
def applyOpsAux : AppState → ℕ → List (Kind × ℤ) → AppState
  | s, _, [] => s
  | s, n, (k, ts) :: rest => applyOpsAux (addReading s k ts n) (n + 1) rest

/-- Apply an interleaving of appends of the five kinds to the empty
state. -/
def applyOps (ops : List (Kind × ℤ)) : AppState :=
  applyOpsAux emptyState 0 ops

/-- `combinedLogs` (src/App.tsx lines 78-84): concatenate the five lists
in source order and sort descending by timestamp. -/
def combinedLogs (s : AppState) : List Reading :=
  sortDescTs (s.glucoseReadings ++ s.meals ++ s.medications ++
    s.weightReadings ++ s.bloodPressureReadings)

/-- Holds between consecutive entries of a list that is descending by
timestamp with ties resolved by the relation `tie`. -/
def SortRel (tie : Reading → Reading → Prop) (a b : Reading) : Prop :=
  b.timestamp < a.timestamp ∨ (a.timestamp = b.timestamp ∧ tie a b)

/-- Tie-compatibility in input order: whenever timestamps are equal, the
tie relation already holds left-to-right. -/
def TieOK (tie : Reading → Reading → Prop) (a b : Reading) : Prop :=
  a.timestamp = b.timestamp → tie a b

/-- Tie-break by global insertion order — the ordering the claim states
for the combined log. -/
def SeqTie (a b : Reading) : Prop := a.seq < b.seq

/-- Tie-break actually produced by `combinedLogs`: kind-group position in
the concatenation first, then insertion order within a kind. -/
def KindTie (a b : Reading) : Prop :=
  kindRank a.kind < kindRank b.kind ∨ (a.kind = b.kind ∧ a.seq < b.seq)

/-- The combined-log order claimed by the specification: strictly
descending timestamps, ties broken by insertion order. -/
def claimOrder : Reading → Reading → Prop := SortRel SeqTie

/-- The combined-log order the code produces: descending timestamps, ties
broken by kind group then insertion order. -/
def combinedOrder : Reading → Reading → Prop := SortRel KindTie

instance : DecidableRel claimOrder := fun a b =>
  inferInstanceAs (Decidable (b.timestamp < a.timestamp ∨
    (a.timestamp = b.timestamp ∧ a.seq < b.seq)))

instance : DecidableRel combinedOrder := fun a b =>
  inferInstanceAs (Decidable (b.timestamp < a.timestamp ∨
    (a.timestamp = b.timestamp ∧
      (kindRank a.kind < kindRank b.kind ∨ (a.kind = b.kind ∧ a.seq < b.seq)))))

/-! ### Realtime voice capture session (src/unnamed/part_000, MedicationLogModal)

The modal's voice session is event-driven JavaScript; it is embedded as a
state machine stepped by discrete events.  A state collects the React
state variables (`isListening`, `currentTranscript`), the nullable refs
(`streamRef`, `scriptProcessorRef`, `inputAudioContextRef`, `sessionRef`,
each modelled by a Boolean "currently held"), the channel status, and
ghost observables: the order in which resources were released, one entry
per frame transmission recording whether the channel was still open, and
the transcripts handed to `parseMedicationFromText`.

`prevDeps` models React's dependency comparison for the effect at
src/unnamed/part_000 lines 178-182 (`if (!isListening && currentTranscript)
handleParseMedication(currentTranscript)`): the effect body runs after a
step exactly when the pair `(isListening, currentTranscript)` differs from
its value at the previous render. -/

/-- A resource released by `stopListening`, in the order the source
releases them: microphone track stop, script-processor disconnect, audio
context close, live-session close. -/
inductive RAct where
  | mic | proc | ctx | chan
  deriving DecidableEq, Repr

/-- State of the medication-modal voice session. -/
structure VS where
  isListening : Bool
  currentTranscript : String
  stream : Bool
  scriptProcessor : Bool
  audioCtxOpen : Bool
  sessionRef : Bool
  sessionOpen : Bool
  sessionStarted : Bool
  releaseLog : List RAct
  sendLog : List Bool
  extractLog : List String
  prevDeps : Bool × String
  deriving DecidableEq, Repr

/-- The freshly mounted modal: idle, empty transcript, no resources. -/
def initVS : VS :=
  { isListening := false
    currentTranscript := ""
    stream := false
    scriptProcessor := false
    audioCtxOpen := false
    sessionRef := false
    sessionOpen := false
    sessionStarted := false
    releaseLog := []
    sendLog := []
    extractLog := []
    prevDeps := (false, "") }

/-- Events driving the session: the user starting capture (the success
path of `startListening`, collapsing microphone acquisition, channel
connect and the `onopen` pipeline setup), the user stopping
(`stopListening`), an incremental transcript fragment (`onmessage` with
`inputTranscription`), an audio-frame capture callback
(`onaudioprocess`), and the modal being unmounted (the cleanup effect at
src/unnamed/part_000 lines 172-176, which calls `stopListening`). -/
inductive VEvent where
  | start
  | stop
  | frag (t : String)
  | frame
  | unmount
  deriving DecidableEq, Repr

/-- `stopListening` (src/unnamed/part_000 lines 90-108): clears the
listening flag, then four independent guarded blocks, each releasing its
resource and nulling its ref only when the ref is still held — written
here in closed form (the blocks test disjoint fields, so the sequential
source is equivalent).  The live channel becomes closed exactly when
`sessionRef.current` was non-null and `close()` was called on it. -/
def stopAction (s : VS) : VS :=
  { s with
    isListening := false
    stream := false
    scriptProcessor := false
    audioCtxOpen := false
    sessionRef := false
    sessionOpen := if s.sessionRef then false else s.sessionOpen
    releaseLog := s.releaseLog ++
      ((if s.stream then [RAct.mic] else []) ++
       ((if s.scriptProcessor then [RAct.proc] else []) ++
        ((if s.audioCtxOpen then [RAct.ctx] else []) ++
         (if s.sessionRef then [RAct.chan] else [])))) }

/-- The success path of `startListening` (src/unnamed/part_000 lines
110-170): a no-op when already listening (`if (isListening) return`);
otherwise clears the transcript, acquires the microphone stream, opens
the live channel and, in `onopen`, creates the audio context and script
processor. -/
def startAction (s : VS) : VS :=
  if s.isListening then s
  else
    { s with
      isListening := true
      currentTranscript := ""
      stream := true
      scriptProcessor := true
      audioCtxOpen := true
      sessionRef := true
      sessionOpen := true
      sessionStarted := true }

/-- `onmessage` (src/unnamed/part_000 lines 144-149): a transcript
fragment is appended to the accumulated transcript
(`setCurrentTranscript(prev => prev + text)`); the handler has no
listening-state guard. -/
def fragAction (s : VS) (t : String) : VS :=
  { s with currentTranscript := s.currentTranscript ++ t }

/-- `onaudioprocess` (src/unnamed/part_000 lines 134-140): the handler
exists once the pipeline was set up, and unconditionally forwards the
encoded frame through `sessionPromise.then(session =>
session.sendRealtimeInput(...))` — there is no state guard, so the send
happens whether or not the channel is still open; the ghost `sendLog`
records the channel's openness at each send. -/
def frameAction (s : VS) : VS :=
  if s.sessionStarted then { s with sendLog := s.sendLog ++ [s.sessionOpen] }
  else s

/-- The extraction effect (src/unnamed/part_000 lines 178-182): after a
render whose `(isListening, currentTranscript)` pair differs from the
previous render's, hand the transcript to the extraction operation when
the session is no longer listening and the transcript is non-empty. -/
def applyExtractEffect (s : VS) : VS :=
  if (s.isListening, s.currentTranscript) = s.prevDeps then s
  else if s.isListening = false ∧ s.currentTranscript ≠ "" then
    { s with
      prevDeps := (s.isListening, s.currentTranscript)
      extractLog := s.extractLog ++ [s.currentTranscript] }
  else
    { s with prevDeps := (s.isListening, s.currentTranscript) }

/-- The state change caused by one event, before the render effect. -/
def eventAction : VEvent → VS → VS
  | .start, s => startAction s
  | .stop, s => stopAction s
  | .frag t, s => fragAction s t
  | .frame, s => frameAction s
  | .unmount, s => stopAction s

/-- One step: the event's action followed by the extraction effect of the
render it triggers. -/
def step (e : VEvent) (s : VS) : VS :=
  applyExtractEffect (eventAction e s)

/-- Run a list of events from a state. -/
def run (es : List VEvent) (s : VS) : VS :=
  es.foldl (fun s e => step e s) s

/-- Concatenation of transcript fragments in arrival order. -/
def concatFrags : List String → String
  | [] => ""
  | f :: fs => f ++ concatFrags fs

/-! ## Theorems about the structured extraction service -/

/-- Characterization of `validateGlucose`: a non-null result is exactly
the parsed reply, and occurs exactly when the reply parsed and carries
`value : number`, `unit : string`, `context : string`. -/
theorem validateGlucose_eq_some (resp : Except Unit Json) (j : Json) :
    validateGlucose resp = some j ↔
      resp = Except.ok j ∧ jsTruthy j = true ∧ propIsNum j "value" = true ∧
        propIsStr j "unit" = true ∧ propIsStr j "context" = true := by
  cases resp with
  | error e => simp [validateGlucose]
  | ok parsed =>
    simp only [validateGlucose, Except.ok.injEq]
    split_ifs with hb
    · simp only [Bool.and_eq_true] at hb
      obtain ⟨⟨⟨h1, h2⟩, h3⟩, h4⟩ := hb
      constructor
      · intro h
        injection h with h
        subst h
        exact ⟨rfl, h1, h2, h3, h4⟩
      · rintro ⟨h, -⟩
        subst h
        rfl
    · constructor
      · intro h
        exact absurd h (by simp)
      · rintro ⟨h, h1, h2, h3, h4⟩
        subst h
        simp [h1, h2, h3, h4] at hb

/-- Characterization of `validateWeight`. -/
theorem validateWeight_eq_some (resp : Except Unit Json) (j : Json) :
    validateWeight resp = some j ↔
      resp = Except.ok j ∧ jsTruthy j = true ∧ propIsNum j "value" = true ∧
        (propEqStr j "unit" "kg" = true ∨ propEqStr j "unit" "lbs" = true) := by
  cases resp with
  | error e => simp [validateWeight]
  | ok parsed =>
    simp only [validateWeight, Except.ok.injEq]
    split_ifs with hb
    · simp only [Bool.and_eq_true, Bool.or_eq_true] at hb
      obtain ⟨⟨h1, h2⟩, h3⟩ := hb
      constructor
      · intro h
        injection h with h
        subst h
        exact ⟨rfl, h1, h2, h3⟩
      · rintro ⟨h, -⟩
        subst h
        rfl
    · constructor
      · intro h
        exact absurd h (by simp)
      · rintro ⟨h, h1, h2, h3⟩
        subst h
        simp [h1, h2] at hb
        rcases h3 with h3 | h3 <;> simp [h3] at hb

/-- Characterization of `validateBloodPressure`. -/
theorem validateBloodPressure_eq_some (resp : Except Unit Json) (j : Json) :
    validateBloodPressure resp = some j ↔
      resp = Except.ok j ∧ jsTruthy j = true ∧ propIsNum j "systolic" = true ∧
        propIsNum j "diastolic" = true ∧ propIsNum j "pulse" = true := by
  cases resp with
  | error e => simp [validateBloodPressure]
  | ok parsed =>
    simp only [validateBloodPressure, Except.ok.injEq]
    split_ifs with hb
    · simp only [Bool.and_eq_true] at hb
      obtain ⟨⟨⟨h1, h2⟩, h3⟩, h4⟩ := hb
      constructor
      · intro h
        injection h with h
        subst h
        exact ⟨rfl, h1, h2, h3, h4⟩
      · rintro ⟨h, -⟩
        subst h
        rfl
    · constructor
      · intro h
        exact absurd h (by simp)
      · rintro ⟨h, h1, h2, h3, h4⟩
        subst h
        simp [h1, h2, h3, h4] at hb

/-- C3: the text-extraction operations return a non-null value exactly
when the backend reply parsed to a (truthy) value carrying every required
field of the target schema with the correct runtime type, and that value
is the parsed reply itself; in every other case (transport failure,
missing field, wrong-typed field) they return null and raise nothing. -/
theorem text_extraction_validates_required_fields (resp : Except Unit Json) (j : Json) :
    (parseGlucoseReadingFromText resp = some j ↔
      resp = Except.ok j ∧ jsTruthy j = true ∧ propIsNum j "value" = true ∧
        propIsStr j "unit" = true ∧ propIsStr j "context" = true) ∧
    (parseWeightFromText resp = some j ↔
      resp = Except.ok j ∧ jsTruthy j = true ∧ propIsNum j "value" = true ∧
        (propEqStr j "unit" "kg" = true ∨ propEqStr j "unit" "lbs" = true)) ∧
    (parseBloodPressureFromText resp = some j ↔
      resp = Except.ok j ∧ jsTruthy j = true ∧ propIsNum j "systolic" = true ∧
        propIsNum j "diastolic" = true ∧ propIsNum j "pulse" = true) :=
  ⟨validateGlucose_eq_some resp j, validateWeight_eq_some resp j,
    validateBloodPressure_eq_some resp j⟩

/-- C2: every classify operation fails safe — a transport or parsing
failure of the backend call is caught at the operation boundary and
converted to the value `false`; nothing is raised past the boundary (the
operations are total functions into plain values, with the `catch`
branch modelled inside them). -/
theorem classify_fail_safe (resp : Except Unit Json) (h : resp = Except.error ()) :
    isImageOfGlucoseMeter resp = some (Json.bool false) ∧
    isImageOfFood resp = some (Json.bool false) ∧
    isImageOfWeightScale resp = some (Json.bool false) ∧
    isImageOfBloodPressureMonitor resp = some (Json.bool false) := by
  subst h
  exact ⟨rfl, rfl, rfl, rfl⟩

/-- Witness for C2: a simulated transport failure yields `false` from all
four classify operations. -/
theorem classify_fail_safe_witness :
    isImageOfGlucoseMeter (Except.error ()) = some (Json.bool false) ∧
    isImageOfFood (Except.error ()) = some (Json.bool false) ∧
    isImageOfWeightScale (Except.error ()) = some (Json.bool false) ∧
    isImageOfBloodPressureMonitor (Except.error ()) = some (Json.bool false) :=
  classify_fail_safe (Except.error ()) rfl

/-- C4: each image-extraction operation consults its classify operation
first; when classification is falsy the operation raises the dedicated
"wrong image content" error — in particular its result is never the `ok`
of a parse result, so the caller can distinguish a wrong kind of photo
(`Except.error`) from an unreadable photo of the right kind
(`Except.ok none`). -/
theorem image_extraction_rejects_mismatched_content (cResp eResp : Except Unit Json) :
    (jsTruthyOpt (isImageOfGlucoseMeter cResp) = false →
      parseGlucoseReadingFromImage cResp eResp =
        Except.error "Image does not appear to contain a glucose meter." ∧
      ∀ r, parseGlucoseReadingFromImage cResp eResp ≠ Except.ok r) ∧
    (jsTruthyOpt (isImageOfWeightScale cResp) = false →
      parseWeightFromImage cResp eResp =
        Except.error "Image does not appear to contain a weight scale." ∧
      ∀ r, parseWeightFromImage cResp eResp ≠ Except.ok r) ∧
    (jsTruthyOpt (isImageOfBloodPressureMonitor cResp) = false →
      parseBloodPressureFromImage cResp eResp =
        Except.error "Image does not appear to contain a blood pressure monitor." ∧
      ∀ r, parseBloodPressureFromImage cResp eResp ≠ Except.ok r) ∧
    (jsTruthyOpt (isImageOfFood cResp) = false →
      analyzeMealPhoto cResp eResp =
        Except.error "Image does not appear to contain food." ∧
      ∀ r, analyzeMealPhoto cResp eResp ≠ Except.ok r) := by
  refine ⟨fun h => ?_, fun h => ?_, fun h => ?_, fun h => ?_⟩
  · have hg : parseGlucoseReadingFromImage cResp eResp =
        Except.error "Image does not appear to contain a glucose meter." := by
      unfold parseGlucoseReadingFromImage
      rw [h]
      rfl
    exact ⟨hg, fun r h2 => by rw [hg] at h2; exact Except.noConfusion h2⟩
  · have hg : parseWeightFromImage cResp eResp =
        Except.error "Image does not appear to contain a weight scale." := by
      unfold parseWeightFromImage
      rw [h]
      rfl
    exact ⟨hg, fun r h2 => by rw [hg] at h2; exact Except.noConfusion h2⟩
  · have hg : parseBloodPressureFromImage cResp eResp =
        Except.error "Image does not appear to contain a blood pressure monitor." := by
      unfold parseBloodPressureFromImage
      rw [h]
      rfl
    exact ⟨hg, fun r h2 => by rw [hg] at h2; exact Except.noConfusion h2⟩
  · have hg : analyzeMealPhoto cResp eResp =
        Except.error "Image does not appear to contain food." := by
      unfold analyzeMealPhoto
      rw [h]
      rfl
    exact ⟨hg, fun r h2 => by rw [hg] at h2; exact Except.noConfusion h2⟩

/-- Witness for C4: a classify reply without the expected Boolean field is
falsy for all four operations, and each image operation then raises its
dedicated error. -/
theorem image_extraction_rejects_mismatched_content_witness :
    parseGlucoseReadingFromImage (Except.ok (Json.obj [])) (Except.error ()) =
      Except.error "Image does not appear to contain a glucose meter." ∧
    parseWeightFromImage (Except.ok (Json.obj [])) (Except.error ()) =
      Except.error "Image does not appear to contain a weight scale." ∧
    parseBloodPressureFromImage (Except.ok (Json.obj [])) (Except.error ()) =
      Except.error "Image does not appear to contain a blood pressure monitor." ∧
    analyzeMealPhoto (Except.ok (Json.obj [])) (Except.error ()) =
      Except.error "Image does not appear to contain food." := by
  have h := image_extraction_rejects_mismatched_content (Except.ok (Json.obj [])) (Except.error ())
  exact ⟨(h.1 rfl).1, (h.2.1 rfl).1, (h.2.2.1 rfl).1, (h.2.2.2 rfl).1⟩

/-- C10: with an empty medication catalog, `parseMedicationFromText`
returns null immediately and issues no backend request (the instrumented
Boolean stays `false`), for every possible backend behaviour. -/
theorem parseMedicationFromText_emptyCatalog_noRequest (resp : Except Unit Json) :
    parseMedicationFromTextR resp [] = (none, false) :=
  rfl

/-- C1: on a non-empty catalog, when the backend reply parses to a truthy
value with a string `name` and a numeric `quantity`, the medication match
is case-insensitive and exact: the result is null whenever the quantity
is not positive or no catalog entry's lowercased name equals the
lowercased returned name, and when the quantity is positive and some
entry matches, the result pairs a matching entry with that quantity. -/
theorem parseMedicationFromText_caseInsensitive_match
    (resp : Except Unit Json) (meds : List UserMedication) (parsed : Json)
    (nm : String) (q : ℚ)
    (hne : meds ≠ [])
    (hresp : resp = Except.ok parsed)
    (htr : jsTruthy parsed = true)
    (hname : propStr? parsed "name" = some nm)
    (hqty : propNum? parsed "quantity" = some q) :
    (q ≤ 0 → parseMedicationFromText resp meds = none) ∧
    ((∀ m ∈ meds, jsToLower m.name ≠ jsToLower nm) →
      parseMedicationFromText resp meds = none) ∧
    (0 < q → ∀ m ∈ meds, jsToLower m.name = jsToLower nm →
      ∃ m₀ ∈ meds, jsToLower m₀.name = jsToLower nm ∧
        parseMedicationFromText resp meds = some (m₀, q)) := by
  subst hresp
  have hlen : ¬ meds.length = 0 := by
    simpa [List.length_eq_zero] using hne
  have hcore : parseMedicationFromText (Except.ok parsed) meds =
      (if 0 < q then
        match meds.find? (fun m => jsToLower m.name == jsToLower nm) with
        | some m => some (m, q)
        | none => none
      else none) := by
    simp only [parseMedicationFromText, parseMedicationFromTextR, if_neg hlen, htr, hname, hqty,
      if_true]
  refine ⟨fun hq => ?_, fun hnomatch => ?_, fun hq m hm hlow => ?_⟩
  · rw [hcore, if_neg (not_lt.mpr hq)]
  · have hnone : meds.find? (fun m => jsToLower m.name == jsToLower nm) = none := by
      rw [List.find?_eq_none]
      intro x hx
      simpa [beq_iff_eq] using hnomatch x hx
    rw [hcore]
    by_cases hq : 0 < q
    · rw [if_pos hq, hnone]
    · rw [if_neg hq]
  · have hs : (meds.find? (fun m => jsToLower m.name == jsToLower nm)).isSome := by
      rw [List.find?_isSome]
      exact ⟨m, hm, by simp [hlow]⟩
    obtain ⟨m₀, hm₀⟩ := Option.isSome_iff_exists.mp hs
    refine ⟨m₀, List.mem_of_find?_eq_some hm₀, ?_, ?_⟩
    · simpa [beq_iff_eq] using List.find?_some hm₀
    · rw [hcore, if_pos hq, hm₀]

/-- The Metformin catalog entry from src/components/dummyData.ts. -/
def metforminEntry : UserMedication := ⟨"um1", "Metformin", 500, "mg"⟩

/-- A backend reply matching "Metformin two pills": name `Metformin`,
quantity `2`. -/
def medCatalogResp : Json :=
  Json.obj [("name", Json.str "Metformin"), ("quantity", Json.num 2)]

/-- Witness for C1: on the catalog `[Metformin]`, a reply naming
`Metformin` with quantity `2` yields that entry with quantity `2`. -/
theorem parseMedicationFromText_caseInsensitive_match_witness :
    parseMedicationFromText (Except.ok medCatalogResp) [metforminEntry] =
      some (metforminEntry, 2) := by
  obtain ⟨m₀, hm₀, hlow, heq⟩ :=
    (parseMedicationFromText_caseInsensitive_match (Except.ok medCatalogResp)
      [metforminEntry] medCatalogResp "Metformin" 2 (by decide) rfl rfl rfl rfl).2.2
      (by norm_num) metforminEntry (by simp) rfl
  have hm : m₀ = metforminEntry := by simpa using hm₀
  rw [hm] at heq
  exact heq

/-! ## Theorems about the combined reading log -/

theorem insertDescTs_mem {a x : Reading} {l : List Reading} :
    x ∈ insertDescTs a l ↔ x = a ∨ x ∈ l := by
  induction l with
  | nil => simp [insertDescTs]
  | cons b bs ih =>
    rw [insertDescTs]
    split_ifs with h
    · simp only [List.mem_cons, ih]
      tauto
    · simp only [List.mem_cons]

theorem sortDescTs_mem {x : Reading} {l : List Reading} :
    x ∈ sortDescTs l ↔ x ∈ l := by
  induction l with
  | nil => simp [sortDescTs]
  | cons a l ih =>
    rw [sortDescTs, insertDescTs_mem]
    simp [ih]

theorem sortRel_tieOK {tie : Reading → Reading → Prop} {a b : Reading}
    (h : SortRel tie a b) : TieOK tie a b := by
  intro heq
  replace h : b.timestamp < a.timestamp ∨ (a.timestamp = b.timestamp ∧ tie a b) := h
  rcases h with h | ⟨-, h⟩
  · exfalso
    omega
  · exact h

theorem insertDescTs_pairwise (tie : Reading → Reading → Prop) (a : Reading)
    (m : List Reading) (hm : List.Pairwise (SortRel tie) m)
    (ha : ∀ b ∈ m, TieOK tie a b) :
    List.Pairwise (SortRel tie) (insertDescTs a m) := by
  induction m with
  | nil => simp [insertDescTs]
  | cons b bs ih =>
    obtain ⟨hb, hbs⟩ := List.pairwise_cons.mp hm
    rw [insertDescTs]
    split_ifs with h
    · refine List.pairwise_cons.mpr ⟨?_, ih hbs fun x hx => ha x (List.mem_cons_of_mem _ hx)⟩
      intro x hx
      rcases insertDescTs_mem.mp hx with rfl | hx
      · exact Or.inl h
      · exact hb x hx
    · refine List.pairwise_cons.mpr ⟨?_, hm⟩
      intro x hx
      have hba : b.timestamp ≤ a.timestamp := le_of_not_lt h
      rcases List.mem_cons.mp hx with rfl | hx
      · rcases lt_or_eq_of_le hba with h1 | h1
        · exact Or.inl h1
        · exact Or.inr ⟨h1.symm, ha x (List.mem_cons_self _ _) h1.symm⟩
      · have hbx := hb x hx
        replace hbx : x.timestamp < b.timestamp ∨ (b.timestamp = x.timestamp ∧ tie b x) := hbx
        have hxb : x.timestamp ≤ b.timestamp := by
          rcases hbx with h2 | h2
          · exact le_of_lt h2
          · exact le_of_eq h2.1.symm
        rcases lt_or_eq_of_le (le_trans hxb hba) with h3 | h3
        · exact Or.inl h3
        · exact Or.inr ⟨h3.symm, ha x (List.mem_cons_of_mem _ hx) h3.symm⟩

theorem sortDescTs_pairwise (tie : Reading → Reading → Prop) (l : List Reading)
    (hl : List.Pairwise (TieOK tie) l) :
    List.Pairwise (SortRel tie) (sortDescTs l) := by
  induction l with
  | nil => simp [sortDescTs]
  | cons a l ih =>
    obtain ⟨ha, hl'⟩ := List.pairwise_cons.mp hl
    rw [sortDescTs]
    exact insertDescTs_pairwise tie a _ (ih hl') fun b hb => ha b (sortDescTs_mem.mp hb)

/-- Invariant of each per-kind list: all entries carry that kind, all
ghost insertion indices are below the running counter, and entries with
equal timestamps appear in insertion order. -/
def GoodList (k : Kind) (n : ℕ) (l : List Reading) : Prop :=
  (∀ r ∈ l, r.kind = k ∧ r.seq < n) ∧ List.Pairwise (TieOK SeqTie) l

theorem GoodList.mono {k : Kind} {n m : ℕ} {l : List Reading}
    (h : GoodList k n l) (hnm : n ≤ m) : GoodList k m l :=
  ⟨fun r hr => ⟨(h.1 r hr).1, lt_of_lt_of_le (h.1 r hr).2 hnm⟩, h.2⟩

theorem addList_good {k : Kind} {n : ℕ} {l : List Reading} (ts : ℤ)
    (h : GoodList k n l) :
    GoodList k (n + 1) (sortDescTs (l ++ [⟨k, ts, n⟩])) := by
  constructor
  · intro r hr
    rcases List.mem_append.mp (sortDescTs_mem.mp hr) with hr | hr
    · exact ⟨(h.1 r hr).1, Nat.lt_succ_of_lt (h.1 r hr).2⟩
    · rcases List.mem_singleton.mp hr with rfl
      exact ⟨rfl, Nat.lt_succ_self n⟩
  · have hp : List.Pairwise (TieOK SeqTie) (l ++ [⟨k, ts, n⟩]) := by
      rw [List.pairwise_append]
      refine ⟨h.2, by simp, ?_⟩
      intro x hx y hy
      rcases List.mem_singleton.mp hy with rfl
      intro heq
      exact (h.1 x hx).2
    exact (sortDescTs_pairwise SeqTie _ hp).imp fun h' => sortRel_tieOK h'

/-- Invariant of the application state after `n` appends. -/
def StateGood (n : ℕ) (s : AppState) : Prop :=
  GoodList .glucose n s.glucoseReadings ∧ GoodList .meal n s.meals ∧
  GoodList .medication n s.medications ∧ GoodList .weight n s.weightReadings ∧
  GoodList .bloodPressure n s.bloodPressureReadings

theorem addReading_good {n : ℕ} {s : AppState} (k : Kind) (ts : ℤ)
    (h : StateGood n s) : StateGood (n + 1) (addReading s k ts n) := by
  obtain ⟨h1, h2, h3, h4, h5⟩ := h
  have m1 := h1.mono (Nat.le_succ n)
  have m2 := h2.mono (Nat.le_succ n)
  have m3 := h3.mono (Nat.le_succ n)
  have m4 := h4.mono (Nat.le_succ n)
  have m5 := h5.mono (Nat.le_succ n)
  cases k with
  | glucose => exact ⟨addList_good ts h1, m2, m3, m4, m5⟩
  | meal => exact ⟨m1, addList_good ts h2, m3, m4, m5⟩
  | medication => exact ⟨m1, m2, addList_good ts h3, m4, m5⟩
  | weight => exact ⟨m1, m2, m3, addList_good ts h4, m5⟩
  | bloodPressure => exact ⟨m1, m2, m3, m4, addList_good ts h5⟩

theorem applyOpsAux_good : ∀ (ops : List (Kind × ℤ)) (s : AppState) (n : ℕ),
    StateGood n s → ∃ m, StateGood m (applyOpsAux s n ops) := by
  intro ops
  induction ops with
  | nil => exact fun s n h => ⟨n, h⟩
  | cons op rest ih =>
    intro s n h
    obtain ⟨k, ts⟩ := op
    exact ih _ _ (addReading_good k ts h)

theorem emptyState_good : StateGood 0 emptyState := by
  refine ⟨?_, ?_, ?_, ?_, ?_⟩ <;>
    exact ⟨fun r hr => absurd hr (List.not_mem_nil r), List.Pairwise.nil⟩

theorem crossTieOK {k₁ k₂ : Kind} {n₁ n₂ : ℕ} {l₁ l₂ : List Reading}
    (h₁ : GoodList k₁ n₁ l₁) (h₂ : GoodList k₂ n₂ l₂)
    (hk : kindRank k₁ < kindRank k₂) :
    ∀ a ∈ l₁, ∀ b ∈ l₂, TieOK KindTie a b := by
  intro a ha b hb heq
  refine Or.inl ?_
  rw [(h₁.1 a ha).1, (h₂.1 b hb).1]
  exact hk

theorem listTieOK {k : Kind} {n : ℕ} {l : List Reading} (h : GoodList k n l) :
    List.Pairwise (TieOK KindTie) l := by
  refine List.Pairwise.imp_of_mem ?_ h.2
  intro a b ha hb hab heq
  exact Or.inr ⟨((h.1 a ha).1).trans ((h.1 b hb).1).symm, hab heq⟩

theorem concat_tieOK {n : ℕ} {s : AppState} (h : StateGood n s) :
    List.Pairwise (TieOK KindTie)
      (s.glucoseReadings ++ s.meals ++ s.medications ++
        s.weightReadings ++ s.bloodPressureReadings) := by
  obtain ⟨h1, h2, h3, h4, h5⟩ := h
  have e45 : List.Pairwise (TieOK KindTie) (s.weightReadings ++ s.bloodPressureReadings) := by
    rw [List.pairwise_append]
    exact ⟨listTieOK h4, listTieOK h5, crossTieOK h4 h5 (by decide)⟩
  have e345 : List.Pairwise (TieOK KindTie)
      (s.medications ++ (s.weightReadings ++ s.bloodPressureReadings)) := by
    rw [List.pairwise_append]
    refine ⟨listTieOK h3, e45, ?_⟩
    intro a ha b hb
    rcases List.mem_append.mp hb with hb | hb
    · exact crossTieOK h3 h4 (by decide) a ha b hb
    · exact crossTieOK h3 h5 (by decide) a ha b hb
  have e2345 : List.Pairwise (TieOK KindTie)
      (s.meals ++ (s.medications ++ (s.weightReadings ++ s.bloodPressureReadings))) := by
    rw [List.pairwise_append]
    refine ⟨listTieOK h2, e345, ?_⟩
    intro a ha b hb
    rcases List.mem_append.mp hb with hb | hb
    · exact crossTieOK h2 h3 (by decide) a ha b hb
    · rcases List.mem_append.mp hb with hb | hb
      · exact crossTieOK h2 h4 (by decide) a ha b hb
      · exact crossTieOK h2 h5 (by decide) a ha b hb
  rw [List.append_assoc, List.append_assoc, List.append_assoc, List.pairwise_append]
  refine ⟨listTieOK h1, e2345, ?_⟩
  intro a ha b hb
  rcases List.mem_append.mp hb with hb | hb
  · exact crossTieOK h1 h2 (by decide) a ha b hb
  · rcases List.mem_append.mp hb with hb | hb
    · exact crossTieOK h1 h3 (by decide) a ha b hb
    · rcases List.mem_append.mp hb with hb | hb
      · exact crossTieOK h1 h4 (by decide) a ha b hb
      · exact crossTieOK h1 h5 (by decide) a ha b hb

/-- Counterexample to C5 as stated: appending a meal and then a glucose
reading with the same timestamp puts the glucose reading (inserted
second) before the meal (inserted first) in the combined log, because
the concatenation lists glucose readings first and the stable sort keeps
that order for equal timestamps — so ties are not broken by insertion
order. -/
theorem combinedLogs_insertionTie_counterexample :
    ¬ List.Pairwise claimOrder
      (combinedLogs (applyOps [(Kind.meal, 100), (Kind.glucose, 100)])) := by
  decide

/-- C5 amended: for every interleaving of appends of the five reading
kinds, the combined log is sorted descending by timestamp (strictly on
distinct timestamps); entries with equal timestamps are grouped by kind
in the fixed concatenation order (glucose, meal, medication, weight,
blood pressure) and within one kind appear in insertion order. -/
theorem combinedLogs_sorted_amended (ops : List (Kind × ℤ)) :
    List.Pairwise combinedOrder (combinedLogs (applyOps ops)) := by
  obtain ⟨m, hm⟩ := applyOpsAux_good ops emptyState 0 emptyState_good
  exact sortDescTs_pairwise KindTie _ (concat_tieOK hm)

/-! ## Theorems about the voice capture session -/

theorem applyExtractEffect_isListening (s : VS) :
    (applyExtractEffect s).isListening = s.isListening := by
  unfold applyExtractEffect
  split_ifs <;> rfl

theorem applyExtractEffect_currentTranscript (s : VS) :
    (applyExtractEffect s).currentTranscript = s.currentTranscript := by
  unfold applyExtractEffect
  split_ifs <;> rfl

theorem applyExtractEffect_stream (s : VS) :
    (applyExtractEffect s).stream = s.stream := by
  unfold applyExtractEffect
  split_ifs <;> rfl

theorem applyExtractEffect_scriptProcessor (s : VS) :
    (applyExtractEffect s).scriptProcessor = s.scriptProcessor := by
  unfold applyExtractEffect
  split_ifs <;> rfl

theorem applyExtractEffect_audioCtxOpen (s : VS) :
    (applyExtractEffect s).audioCtxOpen = s.audioCtxOpen := by
  unfold applyExtractEffect
  split_ifs <;> rfl

theorem applyExtractEffect_sessionRef (s : VS) :
    (applyExtractEffect s).sessionRef = s.sessionRef := by
  unfold applyExtractEffect
  split_ifs <;> rfl

theorem applyExtractEffect_releaseLog (s : VS) :
    (applyExtractEffect s).releaseLog = s.releaseLog := by
  unfold applyExtractEffect
  split_ifs <;> rfl

/-- After any render, the recorded dependency pair equals the pair of the
state rendered — React compares against the previous render. -/
theorem applyExtractEffect_prevDeps (s : VS) :
    (applyExtractEffect s).prevDeps = (s.isListening, s.currentTranscript) := by
  unfold applyExtractEffect
  split_ifs with h1 h2
  · exact h1.symm
  · rfl
  · rfl

/-- While the session is listening, the effect never invokes extraction. -/
theorem applyExtractEffect_extractLog_listening (s : VS) (h : s.isListening = true) :
    (applyExtractEffect s).extractLog = s.extractLog := by
  unfold applyExtractEffect
  split_ifs with _h1 h2
  · rfl
  · exact absurd h2.1 (by simp [h])
  · rfl

/-- The effect is the identity on a state whose dependency pair has not
changed since the previous render. -/
theorem applyExtractEffect_fixed (s : VS)
    (h : s.prevDeps = (s.isListening, s.currentTranscript)) :
    applyExtractEffect s = s := by
  unfold applyExtractEffect
  rw [if_pos h.symm]

/-- `stopListening` on a state holding no resources and not listening
changes nothing. -/
theorem stopAction_idle (s : VS) (h1 : s.isListening = false) (h2 : s.stream = false)
    (h3 : s.scriptProcessor = false) (h4 : s.audioCtxOpen = false)
    (h5 : s.sessionRef = false) :
    stopAction s = s := by
  cases s
  simp_all [stopAction]

theorem step_stop_isListening (s : VS) : (step VEvent.stop s).isListening = false :=
  (applyExtractEffect_isListening _).trans rfl

theorem step_stop_stream (s : VS) : (step VEvent.stop s).stream = false :=
  (applyExtractEffect_stream _).trans rfl

theorem step_stop_scriptProcessor (s : VS) : (step VEvent.stop s).scriptProcessor = false :=
  (applyExtractEffect_scriptProcessor _).trans rfl

theorem step_stop_audioCtxOpen (s : VS) : (step VEvent.stop s).audioCtxOpen = false :=
  (applyExtractEffect_audioCtxOpen _).trans rfl

theorem step_stop_sessionRef (s : VS) : (step VEvent.stop s).sessionRef = false :=
  (applyExtractEffect_sessionRef _).trans rfl

theorem step_stop_prevDeps (s : VS) :
    (step VEvent.stop s).prevDeps =
      ((step VEvent.stop s).isListening, (step VEvent.stop s).currentTranscript) := by
  show (applyExtractEffect (stopAction s)).prevDeps =
    ((applyExtractEffect (stopAction s)).isListening,
      (applyExtractEffect (stopAction s)).currentTranscript)
  rw [applyExtractEffect_prevDeps, applyExtractEffect_isListening,
    applyExtractEffect_currentTranscript]

theorem step_stop_idem (s : VS) :
    step VEvent.stop (step VEvent.stop s) = step VEvent.stop s := by
  show applyExtractEffect (stopAction (step VEvent.stop s)) = step VEvent.stop s
  rw [stopAction_idle _ (step_stop_isListening s) (step_stop_stream s)
    (step_stop_scriptProcessor s) (step_stop_audioCtxOpen s) (step_stop_sessionRef s)]
  exact applyExtractEffect_fixed _ (step_stop_prevDeps s)

/-- C7: the stop/drain operation is idempotent — a second stop after any
stop changes nothing (in particular its release log gains no entry, so no
resource is released twice), and stop is a no-op on a state that is idle
with no resources held (such as a session whose resources were never
acquired). -/
theorem stopListening_idempotent :
    (∀ s : VS, step VEvent.stop (step VEvent.stop s) = step VEvent.stop s) ∧
    (∀ s : VS, s.isListening = false → s.stream = false → s.scriptProcessor = false →
      s.audioCtxOpen = false → s.sessionRef = false →
      s.prevDeps = (false, s.currentTranscript) →
      step VEvent.stop s = s) := by
  constructor
  · exact step_stop_idem
  · intro s h1 h2 h3 h4 h5 h6
    show applyExtractEffect (stopAction s) = s
    rw [stopAction_idle s h1 h2 h3 h4 h5]
    refine applyExtractEffect_fixed s ?_
    rw [h6, h1]

/-- Witness for C7: stop on the freshly mounted (idle) session is a
no-op. -/
theorem stopListening_idempotent_witness : step VEvent.stop initVS = initVS :=
  stopListening_idempotent.2 initVS rfl rfl rfl rfl rfl rfl

/-- C9: unmounting the hosting modal while the session is listening with
all resources held releases the microphone stream, then the audio
processing graph (script processor, then audio context), then the channel
handle — in that order, each exactly once: the release log records
exactly those four actions and a repeated unmount changes nothing. -/
theorem unmount_releases_resources_once (s : VS)
    (h1 : s.isListening = true) (h2 : s.stream = true) (h3 : s.scriptProcessor = true)
    (h4 : s.audioCtxOpen = true) (h5 : s.sessionRef = true) (h6 : s.releaseLog = []) :
    (step VEvent.unmount s).releaseLog = [RAct.mic, RAct.proc, RAct.ctx, RAct.chan] ∧
    step VEvent.unmount (step VEvent.unmount s) = step VEvent.unmount s := by
  constructor
  · show (applyExtractEffect (stopAction s)).releaseLog = _
    rw [applyExtractEffect_releaseLog]
    show s.releaseLog ++ _ = _
    rw [h6]
    simp [h2, h3, h4, h5]
  · exact step_stop_idem s

/-- Witness for C9: starting a session from the fresh modal and then
unmounting yields exactly the four releases, and a second unmount is a
no-op. -/
theorem unmount_releases_resources_once_witness :
    (step VEvent.unmount (step VEvent.start initVS)).releaseLog =
      [RAct.mic, RAct.proc, RAct.ctx, RAct.chan] ∧
    step VEvent.unmount (step VEvent.unmount (step VEvent.start initVS)) =
      step VEvent.unmount (step VEvent.start initVS) :=
  unmount_releases_resources_once (step VEvent.start initVS) rfl rfl rfl rfl rfl rfl

/-- C8 evidence: the audio-frame handler has no state guard, so a frame
callback that fires after stop (for example one queued just before the
stop) is still sent into the channel, which is by then closed — the ghost
send log records a send with the channel closed (`false`), where the
claim requires the frame to be discarded (no send at all).  During
listening the same handler sends with the channel open (`true`). -/
theorem straggler_frame_sent_into_closed_channel :
    (run [VEvent.start, VEvent.stop, VEvent.frame] initVS).sendLog = [false] ∧
    (run [VEvent.start, VEvent.frame] initVS).sendLog = [true] :=
  ⟨by decide, by decide⟩

theorem run_append (es₁ es₂ : List VEvent) (s : VS) :
    run (es₁ ++ es₂) s = run es₂ (run es₁ s) := by
  simp [run, List.foldl_append]

/-- Running transcript-fragment events from a listening state keeps the
session listening, appends the fragments in arrival order, and invokes no
extraction. -/
theorem run_frags (fs : List String) : ∀ s : VS,
    s.isListening = true → s.prevDeps = (true, s.currentTranscript) →
    (run (fs.map VEvent.frag) s).isListening = true ∧
    (run (fs.map VEvent.frag) s).currentTranscript = s.currentTranscript ++ concatFrags fs ∧
    (run (fs.map VEvent.frag) s).extractLog = s.extractLog ∧
    (run (fs.map VEvent.frag) s).prevDeps =
      (true, s.currentTranscript ++ concatFrags fs) := by
  induction fs with
  | nil =>
    intro s h1 h2
    refine ⟨h1, ?_, rfl, ?_⟩
    · show s.currentTranscript = s.currentTranscript ++ concatFrags []
      rw [concatFrags, String.append_empty]
    · show s.prevDeps = (true, s.currentTranscript ++ concatFrags [])
      rw [h2, concatFrags, String.append_empty]
  | cons f fs ih =>
    intro s h1 h2
    have hL : (step (VEvent.frag f) s).isListening = true :=
      (applyExtractEffect_isListening _).trans h1
    have hT : (step (VEvent.frag f) s).currentTranscript = s.currentTranscript ++ f :=
      (applyExtractEffect_currentTranscript _).trans rfl
    have hE : (step (VEvent.frag f) s).extractLog = s.extractLog :=
      (applyExtractEffect_extractLog_listening (fragAction s f) h1).trans rfl
    have hP : (step (VEvent.frag f) s).prevDeps = (true, s.currentTranscript ++ f) := by
      show (applyExtractEffect (fragAction s f)).prevDeps = _
      rw [applyExtractEffect_prevDeps]
      show (s.isListening, s.currentTranscript ++ f) = _
      rw [h1]
    obtain ⟨i1, i2, i3, i4⟩ := ih (step (VEvent.frag f) s) hL (by rw [hP, hT])
    refine ⟨i1, ?_, ?_, ?_⟩
    · show (run (fs.map VEvent.frag) (step (VEvent.frag f) s)).currentTranscript = _
      rw [i2, hT, concatFrags, String.append_assoc]
    · show (run (fs.map VEvent.frag) (step (VEvent.frag f) s)).extractLog = _
      rw [i3, hE]
    · show (run (fs.map VEvent.frag) (step (VEvent.frag f) s)).prevDeps = _
      rw [i4, hT, concatFrags, String.append_assoc]

/-- Stopping from a state whose transcript is up to date and non-empty
records exactly one extraction call carrying the accumulated transcript,
and leaves the transcript unchanged. -/
theorem step_stop_extract (M : VS) (hP : M.prevDeps = (true, M.currentTranscript))
    (hT : M.currentTranscript ≠ "") :
    (step VEvent.stop M).extractLog = M.extractLog ++ [M.currentTranscript] ∧
    (step VEvent.stop M).currentTranscript = M.currentTranscript := by
  have hc : ¬ (((stopAction M).isListening, (stopAction M).currentTranscript) =
      (stopAction M).prevDeps) := by
    show ¬ ((false, M.currentTranscript) = M.prevDeps)
    rw [hP]
    simp
  have hc2 : (stopAction M).isListening = false ∧ (stopAction M).currentTranscript ≠ "" :=
    ⟨rfl, hT⟩
  constructor
  · show (applyExtractEffect (stopAction M)).extractLog = _
    unfold applyExtractEffect
    rw [if_neg hc, if_pos hc2]
    rfl
  · exact (applyExtractEffect_currentTranscript _).trans rfl

/-- C6: a voice session started from the fresh modal that receives any
sequence of transcript fragments and then stops has accumulated exactly
the concatenation of the fragments in arrival order (appended, never
replaced), and hands that accumulated transcript to the extraction
operation exactly once. -/
theorem voice_fragments_appended_extraction_once (fs : List String)
    (h : concatFrags fs ≠ "") :
    (run (VEvent.start :: (fs.map VEvent.frag ++ [VEvent.stop])) initVS).currentTranscript =
      concatFrags fs ∧
    (run (VEvent.start :: (fs.map VEvent.frag ++ [VEvent.stop])) initVS).extractLog =
      [concatFrags fs] := by
  have hrw : run (VEvent.start :: (fs.map VEvent.frag ++ [VEvent.stop])) initVS =
      step VEvent.stop (run (fs.map VEvent.frag) (step VEvent.start initVS)) := by
    show run (fs.map VEvent.frag ++ [VEvent.stop]) (step VEvent.start initVS) = _
    rw [run_append]
    rfl
  obtain ⟨hL, hT, hE, hP⟩ := run_frags fs (step VEvent.start initVS) rfl rfl
  set M := run (fs.map VEvent.frag) (step VEvent.start initVS) with hM
  have hT' : M.currentTranscript = concatFrags fs := by
    rw [hT]
    exact String.empty_append _
  have hP' : M.prevDeps = (true, M.currentTranscript) := by
    rw [hP, hT']
    rw [show (step VEvent.start initVS).currentTranscript = "" from rfl, String.empty_append]
  have hTne : M.currentTranscript ≠ "" := by
    rw [hT']
    exact h
  obtain ⟨he1, he2⟩ := step_stop_extract M hP' hTne
  constructor
  · rw [hrw, he2, hT']
  · rw [hrw, he1, hT', hE]
    rfl

/-- Witness for C6: the fragments "Metformin", " two", " pills" accumulate
to "Metformin two pills" and are handed to extraction exactly once. -/
theorem voice_fragments_appended_extraction_once_witness :
    (run (VEvent.start :: (["Metformin", " two", " pills"].map VEvent.frag ++ [VEvent.stop]))
        initVS).currentTranscript = "Metformin two pills" ∧
    (run (VEvent.start :: (["Metformin", " two", " pills"].map VEvent.frag ++ [VEvent.stop]))
        initVS).extractLog = ["Metformin two pills"] := by
  have h := voice_fragments_appended_extraction_once ["Metformin", " two", " pills"] (by decide)
  have hc : concatFrags ["Metformin", " two", " pills"] = "Metformin two pills" := by decide
  rw [hc] at h
  exact h

end Pharrrohealth
